import Mathlib

/-!
Shallow embedding of the `mongoclient` Go package (repository wrpMongoDB):
a thin facade over the MongoDB Go driver exposing JSON-in CRUD operations
against one configured collection.

The repository holds two generations of the same file:
the old one defines `MoInstance` (with `Cfg.TimeoutSecs`), the new one
defines `Client` (with `Cfg.SecondsTimeoutExecution`). Both are embedded
where a claim needs them; method receivers carry no data relevant to the
results, so methods are embedded as standalone functions under the
`MoInstance` and `Client` namespaces. Driver calls are abstracted as
explicit outcome arguments (oracles); each operation also emits an event
trace recording context derivation, the driver dispatch and the deferred
context cancellation, mirroring the Go control flow order, including
the LIFO order of deferred calls.
-/

namespace MongoWrp

/-- Parsed JSON values. Byte sequences are modelled at the granularity of
their parse result: either they are not valid JSON, or they parse to one
of these values. Numbers are carried as exact integers at parse
granularity; the float64 narrowing that encoding-json applies while
decoding them is modelled separately by float64OfInt and the F64
decoding pipeline below (the operations that never inspect numeric
values are stated over the exact pipeline, where the narrowing is
immaterial; the value-preservation round trip is stated over the F64
pipeline). -/
inductive Jval where
  | jnull
  | jbool (b : Bool)
  | jnum (n : Int)
  | jstr (s : String)
  | jarr (elems : List Jval)
  | jobj (fields : List (String × Jval))

/-- A caller-supplied byte payload, at parse granularity: `none` stands for
bytes that are not valid JSON, `some v` for bytes parsing to the value `v`. -/
abbrev JsonBytes := Option Jval

/-- Dynamically typed Go values as produced by json.Unmarshal into
an interface value: objects become maps (duplicate keys collapse,
last one wins), arrays become slices. -/
inductive GoVal where
  | gnull
  | gbool (b : Bool)
  | gnum (n : Int)
  | gstr (s : String)
  | garr (elems : List GoVal)
  | gmap (entries : List (String × GoVal))

/-- One Go map assignment m[k] = v: replace the binding if the key is
present, append it otherwise. -/
def mapInsert (m : List (String × GoVal)) (k : String) (v : GoVal) :
    List (String × GoVal) :=
  match m with
  | [] => [(k, v)]
  | (k1, v1) :: rest =>
      if k1 = k then (k, v) :: rest else (k1, v1) :: mapInsert rest k v

mutual

/-- json.Unmarshal semantics for decoding one parsed JSON value into a Go
interface value, with numbers kept exact; decodeValF64 below is the
refinement that also performs the float64 narrowing of numbers. -/
def decodeVal : Jval → GoVal
  | .jnull => .gnull
  | .jbool b => .gbool b
  | .jnum n => .gnum n
  | .jstr s => .gstr s
  | .jarr xs => .garr (decodeList xs)
  | .jobj fs => .gmap (decodeFields fs [])

/-- Decoding of a JSON array, element by element. -/
def decodeList : List Jval → List GoVal
  | [] => []
  | x :: xs => decodeVal x :: decodeList xs

/-- Decoding of the members of a JSON object into a Go map, in input
order: each member is assigned into the map, so a later duplicate key
overwrites the earlier binding. -/
def decodeFields : List (String × Jval) → List (String × GoVal) →
    List (String × GoVal)
  | [], acc => acc
  | (k, v) :: fs, acc => decodeFields fs (mapInsert acc k (decodeVal v))

end

/-- MongoDB driver-level errors, as seen by the facade. `noDocuments`
is the sentinel mongo.ErrNoDocuments returned by a single-record find
that matched zero documents; `other` covers every remaining driver
failure (network, timeout, server-side rejection, nil filter document). -/
inductive DriverErr where
  | noDocuments
  | other (code : Nat)
deriving DecidableEq, Repr

/-- Error values the facade can return. `jsonInvalid` and `jsonType` are the
two shapes of json.Unmarshal failure (invalid JSON; valid JSON whose
top-level value cannot be stored in a map). `collectionNil` is the
errors.New value of the nil-collection guard in InsertOne. `driver`
is a driver error returned as-is; `wrap` is errors.Wrap. -/
inductive Err where
  | jsonInvalid
  | jsonType
  | collectionNil
  | driver (e : DriverErr)
  | wrap (msg : String) (e : Err)
deriving DecidableEq, Repr

/-- Does an error come from the JSON conversion layer (a MalformedPayload
in the words of the spec)? -/
def Err.isMalformedPayload : Err → Bool
  | .jsonInvalid => true
  | .jsonType => true
  | _ => false

/-- errors.Is analogue: does this error preserve the given driver error as
its cause (directly or through errors.Wrap layers)? -/
def Err.hasCause : Err → DriverErr → Bool
  | .driver e, c => e == c
  | .wrap _ inner, c => inner.hasCause c
  | _, _ => false

/-- The Go value of type bson.M: either the nil map or a map value. -/
abbrev BsonM := Option (List (String × GoVal))

/-- jsonToBsonM from helpers.go: declares a bson.M (nil) and returns it
together with the json.Unmarshal error. json.Unmarshal into a map
succeeds on a JSON object (filling the map) and on the literal null
(leaving the map nil with a nil error); it fails with a syntax error on
invalid JSON and with a type error on any other top-level value, leaving
the map nil. -/
def jsonToBsonM : JsonBytes → BsonM × Option Err
  | none => (none, some .jsonInvalid)
  | some .jnull => (none, none)
  | some (.jobj fs) => (some (decodeFields fs []), none)
  | some _ => (none, some .jsonType)

/-- A decoded result document, the bson.M a find decodes into. -/
abbrev Doc := List (String × GoVal)

/-- Events observable in one facade operation, in program order:
derivation of the timeout sub-context, the dispatch of the driver call,
the deferred cursor close, and the deferred cancellation of the derived
context. -/
inductive Event where
  | deriveCtx
  | driverCall
  | closeCursor
  | cancelCtx
deriving DecidableEq, Repr

/-- Result of running a Go function: a returned value, or a runtime panic. -/
inductive ExecResult (α : Type) where
  | ok (a : α)
  | panics (msg : String)
deriving DecidableEq, Repr

/-- primitive.ObjectID, a fixed-size byte identifier; modelled by its
numeric value, the zero value (12 zero bytes) being 0. -/
abbrev ObjectID := Nat

/-- The zero value primitive.ObjectID returned on every error path. -/
def zeroObjectID : ObjectID := 0

/-- The dynamically typed InsertedID of a driver insert result: either a
server-assigned primitive.ObjectID or a value of another type (for
example a caller-supplied string identifier). -/
inductive IDVal where
  | oid (id : ObjectID)
  | strID (s : String)
deriving DecidableEq, Repr

/-- The driver result of Collection.InsertOne. -/
structure InsertOneResult where
  insertedID : IDVal
deriving DecidableEq, Repr

/-- Outcome of one Collection.InsertOne driver call: the possibly-nil
result pointer and the possibly-nil error, independent components as in
the Go API. -/
structure InsertOutcome where
  result : Option InsertOneResult
  err : Option DriverErr
deriving DecidableEq, Repr

/-- The Go panic message of a failed interface type assertion. -/
def assertionPanicMsg : String :=
  "interface conversion: InsertedID is not primitive.ObjectID"

/-- Client.InsertOne (new generation): derive timeout context with
deferred cancel, convert the payload, guard against a nil collection,
dispatch one driver insert; whenever the driver reports an error or a
nil result, return the zero ObjectID with that error; otherwise
type-assert the InsertedID to primitive.ObjectID (a panic if it is not
one) and return it with a nil error. -/
def Client.InsertOne (data : JsonBytes) (collectionIsNil : Bool)
    (o : InsertOutcome) : ExecResult (ObjectID × Option Err) × List Event :=
  match (jsonToBsonM data).2 with
  | some e => (.ok (zeroObjectID, some e), [.deriveCtx, .cancelCtx])
  | none =>
    if collectionIsNil then
      (.ok (zeroObjectID, some .collectionNil), [.deriveCtx, .cancelCtx])
    else
      match o.result, o.err with
      | none, e =>
          (.ok (zeroObjectID, e.map Err.driver),
           [.deriveCtx, .driverCall, .cancelCtx])
      | some _, some e =>
          (.ok (zeroObjectID, some (.driver e)),
           [.deriveCtx, .driverCall, .cancelCtx])
      | some r, none =>
          match r.insertedID with
          | .oid id =>
              (.ok (id, none), [.deriveCtx, .driverCall, .cancelCtx])
          | .strID _ =>
              (.panics assertionPanicMsg,
               [.deriveCtx, .driverCall, .cancelCtx])

/-- MoInstance.InsertOne (old generation): same shape, but the guard
after the driver call checks only for a nil result; with a non-nil
result the InsertedID is type-asserted and returned together with
errInsert, even when errInsert is non-nil. -/
def MoInstance.InsertOne (data : JsonBytes) (collectionIsNil : Bool)
    (o : InsertOutcome) : ExecResult (ObjectID × Option Err) × List Event :=
  match (jsonToBsonM data).2 with
  | some e => (.ok (zeroObjectID, some e), [.deriveCtx, .cancelCtx])
  | none =>
    if collectionIsNil then
      (.ok (zeroObjectID, some .collectionNil), [.deriveCtx, .cancelCtx])
    else
      match o.result with
      | none =>
          (.ok (zeroObjectID, o.err.map Err.driver),
           [.deriveCtx, .driverCall, .cancelCtx])
      | some r =>
          match r.insertedID with
          | .oid id =>
              (.ok (id, o.err.map Err.driver),
               [.deriveCtx, .driverCall, .cancelCtx])
          | .strID _ =>
              (.panics assertionPanicMsg,
               [.deriveCtx, .driverCall, .cancelCtx])

/-- Outcome of one single-record find: FindOne(...).Decode either fills
the result document or returns an error (mongo.ErrNoDocuments when zero
documents matched). -/
abbrev SingleOutcome := Except DriverErr Doc

/-- Client.FindOne: derive timeout context with deferred cancel, convert
the JSON filter (returning the conversion error before any driver call),
dispatch one FindOne and return the decoded document or the driver
error as-is. -/
def Client.FindOne (filter : JsonBytes) (o : SingleOutcome) :
    (Option Doc × Option Err) × List Event :=
  match (jsonToBsonM filter).2 with
  | some e => ((none, some e), [.deriveCtx, .cancelCtx])
  | none =>
    match o with
    | .error e =>
        ((none, some (.driver e)), [.deriveCtx, .driverCall, .cancelCtx])
    | .ok doc =>
        ((some doc, none), [.deriveCtx, .driverCall, .cancelCtx])

/-- Client.FindByID: builds the filter from the ObjectID directly (no
JSON conversion step) and otherwise behaves like FindOne. -/
def Client.FindByID (objectID : ObjectID) (o : SingleOutcome) :
    (Option Doc × Option Err) × List Event :=
  let _filter : Doc := [("_id", .gmap [("$eq", .gnum objectID)])]
  match o with
  | .error e =>
      ((none, some (.driver e)), [.deriveCtx, .driverCall, .cancelCtx])
  | .ok doc =>
      ((some doc, none), [.deriveCtx, .driverCall, .cancelCtx])

/-- The contents of a server-side cursor: for each fetched record, how
its Decode call turns out; plus the terminal cursor.Err value observed
after iteration ends. -/
structure CursorData where
  items : List (Except DriverErr Doc)
  finalErr : Option DriverErr

/-- Loop body of walkMongoSet with the accumulated slice: on a decode
failure return a nil slice and the wrapped error at once, discarding the
accumulator; after the loop check cursor.Err and wrap it likewise;
otherwise return the accumulated documents with a nil error. -/
def walkAux : List (Except DriverErr Doc) → List Doc → Option DriverErr →
    List Doc × Option Err
  | .error e :: _, _, _ =>
      ([], some (.wrap "could not decode into buffer" (.driver e)))
  | .ok d :: rest, acc, ce => walkAux rest (acc ++ [d]) ce
  | [], _, some e => ([], some (.wrap "cursor error" (.driver e)))
  | [], acc, none => (acc, none)

/-- walkMongoSet: iterate the cursor, decoding every record into the
result slice. The nil slice of the error paths and the empty result of
an empty cursor are both the empty list. -/
def walkMongoSet (cursor : CursorData) : List Doc × Option Err :=
  walkAux cursor.items [] cursor.finalErr

/-- Outcome of one Collection.Find driver call: a driver error or a
cursor. -/
abbrev FindOutcome := Except DriverErr CursorData

/-- Client.FindManyFilterJSON: derive timeout context with deferred
cancel, convert the JSON filter (returning the conversion error before
any driver call), dispatch one Find, then walk the cursor; the cursor is
closed by a deferred call that runs before the deferred context cancel. -/
def Client.FindManyFilterJSON (filterJSON : JsonBytes) (o : FindOutcome) :
    (List Doc × Option Err) × List Event :=
  match (jsonToBsonM filterJSON).2 with
  | some e => (([], some e), [.deriveCtx, .cancelCtx])
  | none =>
    match o with
    | .error e =>
        (([], some (.driver e)), [.deriveCtx, .driverCall, .cancelCtx])
    | .ok cursor =>
        (walkMongoSet cursor,
         [.deriveCtx, .driverCall, .closeCursor, .cancelCtx])

/-- Client.FindManyFilterBSON: as FindManyFilterJSON but the filter is
already a document, so there is no conversion step. -/
def Client.FindManyFilterBSON (filterBSON : Doc) (o : FindOutcome) :
    (List Doc × Option Err) × List Event :=
  let _filter := filterBSON
  match o with
  | .error e =>
      (([], some (.driver e)), [.deriveCtx, .driverCall, .cancelCtx])
  | .ok cursor =>
      (walkMongoSet cursor,
       [.deriveCtx, .driverCall, .closeCursor, .cancelCtx])

/-- Outcome of one delete driver call: the possibly-nil DeleteResult
(carrying the deleted count) and the possibly-nil error, returned to the
caller untranslated. -/
abbrev DeleteOutcome := Option Nat × Option DriverErr

/-- Client.DeleteOne: derive timeout context with deferred cancel,
convert the JSON filter (returning the conversion error before any
driver call), then return the driver DeleteOne outcome verbatim. -/
def Client.DeleteOne (filter : JsonBytes) (o : DeleteOutcome) :
    (Option Nat × Option Err) × List Event :=
  match (jsonToBsonM filter).2 with
  | some e => ((none, some e), [.deriveCtx, .cancelCtx])
  | none =>
      ((o.1, o.2.map Err.driver), [.deriveCtx, .driverCall, .cancelCtx])

/-- Client.DeleteAll: identical shape to DeleteOne, dispatching
DeleteMany. -/
def Client.DeleteAll (filter : JsonBytes) (o : DeleteOutcome) :
    (Option Nat × Option Err) × List Event :=
  match (jsonToBsonM filter).2 with
  | some e => ((none, some e), [.deriveCtx, .cancelCtx])
  | none =>
      ((o.1, o.2.map Err.driver), [.deriveCtx, .driverCall, .cancelCtx])

/-- Outcome of one update driver call: the possibly-nil UpdateResult
(matched and modified counts) and the possibly-nil error. -/
abbrev UpdateOutcome := Option (Nat × Nat) × Option DriverErr

/-- Client.UpdateByID: builds the identifier filter directly (no JSON
conversion) and returns the driver UpdateOne outcome verbatim. -/
def Client.UpdateByID (id : ObjectID) (newValue : Doc) (o : UpdateOutcome) :
    (Option (Nat × Nat) × Option Err) × List Event :=
  let _filter : Doc := [("_id", .gmap [("$eq", .gnum id)])]
  let _nv := newValue
  ((o.1, o.2.map Err.driver), [.deriveCtx, .driverCall, .cancelCtx])

/-- Client.UpdateOne: filter is already a document, no conversion;
returns the driver UpdateOne outcome verbatim. -/
def Client.UpdateOne (filter : Doc) (newValue : Doc) (o : UpdateOutcome) :
    (Option (Nat × Nat) × Option Err) × List Event :=
  let _f := filter
  let _nv := newValue
  ((o.1, o.2.map Err.driver), [.deriveCtx, .driverCall, .cancelCtx])

/-- Client.UpdateMany: derive timeout context with deferred cancel,
convert the JSON filter (returning the conversion error before any
driver call), then return the driver UpdateMany outcome verbatim. -/
def Client.UpdateMany (filter : JsonBytes) (newValue : Doc)
    (o : UpdateOutcome) : (Option (Nat × Nat) × Option Err) × List Event :=
  let _nv := newValue
  match (jsonToBsonM filter).2 with
  | some e => ((none, some e), [.deriveCtx, .cancelCtx])
  | none =>
      ((o.1, o.2.map Err.driver), [.deriveCtx, .driverCall, .cancelCtx])

/-- Configuration of the new generation client. -/
structure Cfg where
  url : String
  database : String
  collection : String
  secondsTimeoutExecution : Nat
deriving DecidableEq, Repr

/-- Outcomes of the driver calls made by the constructor: mongo.Connect,
instance.Ping and mongo.NewClient (a possibly-nil client and a
possibly-nil error). -/
structure ConnectOracle where
  connectErr : Option DriverErr
  pingErr : Option DriverErr
  newClientIsNil : Bool
  newClientErr : Option DriverErr
deriving DecidableEq, Repr

/-- The Go panic message of a nil pointer dereference. -/
def nilDerefPanicMsg : String :=
  "runtime error: invalid memory address or nil pointer dereference"

/-- NewMongo (new generation): the nil check on the configuration
pointer has an empty body (only a TODO comment), after which
config.SecondsTimeoutExecution dereferences the pointer, panicking when
it is nil. With a non-nil configuration: connect, ping, then build a
second client, returning each driver error directly; the Bool of the
result records whether a non-nil client was returned. -/
def NewMongo (config : Option Cfg) (o : ConnectOracle) :
    ExecResult (Bool × Option Err) :=
  match config with
  | none => .panics nilDerefPanicMsg
  | some _ =>
    match o.connectErr with
    | some e => .ok (false, some (.driver e))
    | none =>
      match o.pingErr with
      | some e => .ok (false, some (.driver e))
      | none =>
        match o.newClientErr, o.newClientIsNil with
        | some e, _ => .ok (false, some (.driver e))
        | none, true => .ok (false, none)
        | none, false => .ok (true, none)

mutual

/-- Modelled from the spec: the repository never serializes a Document
back to JSON (the round-trip property of the spec posits it), so the
inverse direction is taken from the spec description of a Document as an
ordered-key-irrelevant mapping: each Go value is rendered back as the
JSON value of the same shape, a map becoming an object holding one
member per entry. -/
def marshalVal : GoVal → Jval
  | .gnull => .jnull
  | .gbool b => .jbool b
  | .gnum n => .jnum n
  | .gstr s => .jstr s
  | .garr xs => .jarr (marshalList xs)
  | .gmap m => .jobj (marshalFields m)

/-- Serialization of a slice of Go values, element by element. -/
def marshalList : List GoVal → List Jval
  | [] => []
  | x :: xs => marshalVal x :: marshalList xs

/-- Serialization of the entries of a Go map, entry by entry. -/
def marshalFields : List (String × GoVal) → List (String × Jval)
  | [] => []
  | (k, v) :: m => (k, marshalVal v) :: marshalFields m

end

/-- Is the key k absent from the member list? -/
def keysFresh (k : String) : List (String × Jval) → Bool
  | [] => true
  | (k1, _) :: fs => (k1 != k) && keysFresh k fs

/-- Are the member names of one object pairwise distinct? -/
def nodupKeysB : List (String × Jval) → Bool
  | [] => true
  | (k, _) :: fs => keysFresh k fs && nodupKeysB fs

mutual

/-- Does every object nested anywhere in the value have pairwise
distinct member names? -/
def uniqKeys : Jval → Bool
  | .jnull => true
  | .jbool _ => true
  | .jnum _ => true
  | .jstr _ => true
  | .jarr xs => uniqKeysList xs
  | .jobj fs => nodupKeysB fs && uniqKeysFields fs

/-- uniqKeys over every element of an array. -/
def uniqKeysList : List Jval → Bool
  | [] => true
  | x :: xs => uniqKeys x && uniqKeysList xs

/-- uniqKeys over every member value of an object. -/
def uniqKeysFields : List (String × Jval) → Bool
  | [] => true
  | (_, v) :: fs => uniqKeys v && uniqKeysFields fs

end

/-- Is the key k absent from the Go map? -/
def goKeysFresh (k : String) : List (String × GoVal) → Bool
  | [] => true
  | (k1, _) :: m => (k1 != k) && goKeysFresh k m

/-- Round m to the nearest multiple of ulp, ties to the even multiple
(round-to-nearest-even on the quotient, the IEEE default). -/
def roundToMultiple (m ulp : Nat) : Nat :=
  let q := m / ulp
  let r := m % ulp
  if 2 * r < ulp then q * ulp
  else if ulp < 2 * r then (q + 1) * ulp
  else if q % 2 = 0 then q * ulp else (q + 1) * ulp

/-- 2 to the 53, the first natural number above which not every integer
is representable in a binary64 significand. -/
def twoPow53 : Nat := 9007199254740992

/-- 2 to the 1024, the overflow bound of binary64. -/
def twoPow1024 : Nat := 179769313486231590772930519078902473361797697894230657273430081157732675805500963132708477322407536021120113879871393357658789768814416622492847430639474124377767893424865485276302219601246094119453082952085005768838150682342462881473913110540827237163350510684586298239947245938479716304835356329624224137216

/-- Fuel-driven binary length: for n below 2 to the fuel, the number of
binary digits of n (zero for zero). -/
def bitLenAux : Nat → Nat → Nat
  | _, 0 => 0
  | 0, _ => 0
  | fuel + 1, n + 1 => bitLenAux fuel ((n + 1) / 2) + 1

/-- Binary length of numbers below 2 to the 1100, the only range on
which float64OfNat consults it. -/
def bitLen (m : Nat) : Nat := bitLenAux 1100 m

/-- The float64 (IEEE binary64) narrowing of a natural number, as
performed by strconv.ParseFloat inside the json decoder: exact below
2 to the 53, otherwise rounded to the 53-bit-significand grid (the unit
in the last place is 2 to the binary length minus 53), and an
out-of-range failure when the rounded value reaches 2 to the 1024
(every number at or above that bound rounds to at least the bound, so
those inputs overflow outright). -/
def float64OfNat (m : Nat) : Option Nat :=
  if m < twoPow53 then some m
  else if twoPow1024 ≤ m then none
  else
    let ulp := 2 ^ (bitLen m - 53)
    let r := roundToMultiple m ulp
    if r < twoPow1024 then some r else none

/-- float64 narrowing of an integer: the magnitude is narrowed and the
sign preserved (binary64 rounding is symmetric). -/
def float64OfInt (n : Int) : Option Int :=
  (float64OfNat n.natAbs).map fun m => if n < 0 then -(m : Int) else (m : Int)

mutual

/-- decodeVal refined with the float64 narrowing of numbers done by
json.Unmarshal: an out-of-range number makes the decode fail. -/
def decodeValF64 : Jval → Option GoVal
  | .jnull => some .gnull
  | .jbool b => some (.gbool b)
  | .jnum n => (float64OfInt n).map .gnum
  | .jstr s => some (.gstr s)
  | .jarr xs => (decodeListF64 xs).map .garr
  | .jobj fs => (decodeFieldsF64 fs []).map .gmap

/-- decodeList refined with the float64 narrowing. -/
def decodeListF64 : List Jval → Option (List GoVal)
  | [] => some []
  | x :: xs =>
      match decodeValF64 x, decodeListF64 xs with
      | some v, some vs => some (v :: vs)
      | _, _ => none

/-- decodeFields refined with the float64 narrowing. -/
def decodeFieldsF64 : List (String × Jval) → List (String × GoVal) →
    Option (List (String × GoVal))
  | [], acc => some acc
  | (k, v) :: fs, acc =>
      match decodeValF64 v with
      | some gv => decodeFieldsF64 fs (mapInsert acc k gv)
      | none => none

end

mutual

/-- Is every number nested anywhere in the value exactly representable
in float64, so that the narrowing preserves it? -/
def numsRepresentable : Jval → Bool
  | .jnull => true
  | .jbool _ => true
  | .jnum n => float64OfInt n == some n
  | .jstr _ => true
  | .jarr xs => numsRepresentableList xs
  | .jobj fs => numsRepresentableFields fs

/-- numsRepresentable over every element of an array. -/
def numsRepresentableList : List Jval → Bool
  | [] => true
  | x :: xs => numsRepresentable x && numsRepresentableList xs

/-- numsRepresentable over every member value of an object. -/
def numsRepresentableFields : List (String × Jval) → Bool
  | [] => true
  | (_, v) :: fs => numsRepresentable v && numsRepresentableFields fs

end

/-- jsonToBsonM refined with the float64 narrowing of numbers performed
by encoding-json: identical to jsonToBsonM except that every number is
narrowed, and an out-of-range number makes Unmarshal report an
UnmarshalTypeError (the partially filled map that a failing Unmarshal
can leave behind is never observed: the facade checks the error before
using the map, and the round trip below is defined only on the
error-free case). -/
def jsonToBsonMF64 : JsonBytes → BsonM × Option Err
  | none => (none, some .jsonInvalid)
  | some .jnull => (none, none)
  | some (.jobj fs) =>
      match decodeFieldsF64 fs [] with
      | some m => (some m, none)
      | none => (none, some .jsonType)
  | some _ => (none, some .jsonType)

/-- The round trip of the spec: convert a JSON payload to a Document via
the conversion layer (with its float64 narrowing of numbers), then
serialize the Document back to JSON; defined only when the conversion
produced a non-nil Document without error. -/
def roundTripF64 (j : Jval) : Option Jval :=
  match jsonToBsonMF64 (some j) with
  | (some m, none) => some (marshalVal (.gmap m))
  | _ => none

/-- Does the event trace end with the cancellation of the derived
context? -/
def endsWithCancel : List Event → Bool
  | [] => false
  | [ev] => ev == .cancelCtx
  | _ :: rest => endsWithCancel rest

/-- The derived context is released exactly once, as the last action of
the operation. -/
def cancelReleasedOnce (tr : List Event) : Bool :=
  endsWithCancel tr && (tr.count .cancelCtx == 1)

/-- The inputs the conversion layer rejects: bytes that are not valid
JSON, or valid JSON whose top-level value is a scalar other than null,
or an array. The literal null is deliberately not in this set: the Go
json decoder accepts it for a map, leaving the map nil. -/
def isNonNullNonObject : JsonBytes → Bool
  | none => true
  | some .jnull => false
  | some (.jobj _) => false
  | some _ => true

/-- Is the error exactly the zero-documents sentinel of the driver
(mongo.ErrNoDocuments), as opposed to any other store failure? -/
def Err.isNotFound : Err → Bool
  | .driver .noDocuments => true
  | _ => false

theorem goKeysFresh_append (k : String) (a b : List (String × GoVal)) :
    goKeysFresh k (a ++ b) = (goKeysFresh k a && goKeysFresh k b) := by
  induction a with
  | nil => simp [goKeysFresh]
  | cons kv rest ih =>
      obtain ⟨k1, v1⟩ := kv
      simp [goKeysFresh, ih, Bool.and_assoc]

theorem mapInsert_fresh (acc : List (String × GoVal)) (k : String) (v : GoVal)
    (h : goKeysFresh k acc = true) : mapInsert acc k v = acc ++ [(k, v)] := by
  induction acc with
  | nil => rfl
  | cons kv rest ih =>
      obtain ⟨k1, v1⟩ := kv
      simp only [goKeysFresh, Bool.and_eq_true, bne_iff_ne, ne_eq] at h
      simp [mapInsert, h.1, ih h.2]

theorem keysFresh_ne (k : String) (fs : List (String × Jval))
    (h : keysFresh k fs = true) :
    ∀ kv : String × Jval, kv ∈ fs → kv.1 ≠ k := by
  induction fs with
  | nil => simp
  | cons kv0 rest ih =>
      obtain ⟨k1, v1⟩ := kv0
      simp only [keysFresh, Bool.and_eq_true, bne_iff_ne, ne_eq] at h
      intro kv hm
      rcases List.mem_cons.mp hm with h1 | h2
      · subst h1; exact h.1
      · exact ih h.2 kv h2

theorem decodeFields_eq (fs : List (String × Jval)) :
    ∀ acc : List (String × GoVal),
      nodupKeysB fs = true →
      (∀ kv : String × Jval, kv ∈ fs → goKeysFresh kv.1 acc = true) →
      decodeFields fs acc = acc ++ fs.map (fun kv => (kv.1, decodeVal kv.2)) := by
  induction fs with
  | nil => intro acc _ _; simp [decodeFields]
  | cons kv rest ih =>
      obtain ⟨k, v⟩ := kv
      intro acc hnd hfresh
      simp only [nodupKeysB, Bool.and_eq_true] at hnd
      have hf : goKeysFresh k acc = true := hfresh (k, v) (List.mem_cons_self _ _)
      have hfresh2 : ∀ kv : String × Jval, kv ∈ rest →
          goKeysFresh kv.1 (acc ++ [(k, decodeVal v)]) = true := by
        intro kv hm
        rw [goKeysFresh_append]
        have h1 := hfresh kv (List.mem_cons_of_mem _ hm)
        have h2 : kv.1 ≠ k := keysFresh_ne k rest hnd.1 kv hm
        simp [h1, goKeysFresh, bne_iff_ne, Ne.symm h2]
      simp only [decodeFields]
      rw [mapInsert_fresh acc k (decodeVal v) hf, ih _ hnd.2 hfresh2]
      simp

mutual

theorem marshalVal_decodeVal (j : Jval) (h : uniqKeys j = true) :
    marshalVal (decodeVal j) = j := by
  match j with
  | .jnull => rfl
  | .jbool b => rfl
  | .jnum n => rfl
  | .jstr s => rfl
  | .jarr xs =>
      have h1 : uniqKeysList xs = true := by simpa [uniqKeys] using h
      simp only [decodeVal, marshalVal]
      rw [marshalList_decodeList xs h1]
  | .jobj fs =>
      have h1 : nodupKeysB fs = true ∧ uniqKeysFields fs = true := by
        simpa [uniqKeys, Bool.and_eq_true] using h
      simp only [decodeVal, marshalVal]
      rw [decodeFields_eq fs [] h1.1 (by intro kv _; rfl)]
      simp only [List.nil_append]
      rw [marshalFields_decode fs h1.2]

theorem marshalList_decodeList (xs : List Jval) (h : uniqKeysList xs = true) :
    marshalList (decodeList xs) = xs := by
  match xs with
  | [] => rfl
  | x :: rest =>
      have h1 : uniqKeys x = true ∧ uniqKeysList rest = true := by
        simpa [uniqKeysList, Bool.and_eq_true] using h
      simp only [decodeList, marshalList]
      rw [marshalVal_decodeVal x h1.1, marshalList_decodeList rest h1.2]

theorem marshalFields_decode (fs : List (String × Jval))
    (h : uniqKeysFields fs = true) :
    marshalFields (fs.map (fun kv => (kv.1, decodeVal kv.2))) = fs := by
  match fs with
  | [] => rfl
  | (k, v) :: rest =>
      have h1 : uniqKeys v = true ∧ uniqKeysFields rest = true := by
        simpa [uniqKeysFields, Bool.and_eq_true] using h
      simp only [List.map, marshalFields]
      rw [marshalVal_decodeVal v h1.1, marshalFields_decode rest h1.2]

end

theorem jsonToBsonM_rejects (data : JsonBytes)
    (h : isNonNullNonObject data = true) :
    ∃ e : Err, (jsonToBsonM data).2 = some e ∧ e.isMalformedPayload = true := by
  match data with
  | none => exact ⟨.jsonInvalid, rfl, rfl⟩
  | some .jnull => simp [isNonNullNonObject] at h
  | some (.jobj _) => simp [isNonNullNonObject] at h
  | some (.jbool _) => exact ⟨.jsonType, rfl, rfl⟩
  | some (.jnum _) => exact ⟨.jsonType, rfl, rfl⟩
  | some (.jstr _) => exact ⟨.jsonType, rfl, rfl⟩
  | some (.jarr _) => exact ⟨.jsonType, rfl, rfl⟩

/-- C1 (amended): for every input that is not valid JSON, or whose
top-level value is a scalar other than null or an array, each
JSON-accepting facade operation (InsertOne, FindOne, FindManyFilterJSON,
DeleteOne, DeleteAll, UpdateMany) returns the MalformedPayload
conversion error and its trace is exactly context derivation followed by
the deferred cancellation: no driver call is dispatched. -/
theorem C1_nonobject_rejected_before_driver (data : JsonBytes)
    (h : isNonNullNonObject data = true) :
    ∃ e : Err, e.isMalformedPayload = true ∧
      Event.driverCall ∉ ([.deriveCtx, .cancelCtx] : List Event) ∧
      (∀ cn o, Client.InsertOne data cn o =
        (.ok (zeroObjectID, some e), [.deriveCtx, .cancelCtx])) ∧
      (∀ o, Client.FindOne data o =
        ((none, some e), [.deriveCtx, .cancelCtx])) ∧
      (∀ o, Client.FindManyFilterJSON data o =
        (([], some e), [.deriveCtx, .cancelCtx])) ∧
      (∀ o, Client.DeleteOne data o =
        ((none, some e), [.deriveCtx, .cancelCtx])) ∧
      (∀ o, Client.DeleteAll data o =
        ((none, some e), [.deriveCtx, .cancelCtx])) ∧
      (∀ nv o, Client.UpdateMany data nv o =
        ((none, some e), [.deriveCtx, .cancelCtx])) := by
  obtain ⟨e, he, hm⟩ := jsonToBsonM_rejects data h
  refine ⟨e, hm, by simp, ?_, ?_, ?_, ?_, ?_, ?_⟩
  · intro cn o; simp [Client.InsertOne, he]
  · intro o; simp [Client.FindOne, he]
  · intro o; simp [Client.FindManyFilterJSON, he]
  · intro o; simp [Client.DeleteOne, he]
  · intro o; simp [Client.DeleteAll, he]
  · intro nv o; simp [Client.UpdateMany, he]

/-- C1 witness: the JSON array input is rejected by every JSON-accepting
operation before any driver call. -/
theorem C1_nonobject_rejected_before_driver_witness :
    isNonNullNonObject (some (.jarr [])) = true ∧
    ∃ e : Err, e.isMalformedPayload = true ∧
      Event.driverCall ∉ ([.deriveCtx, .cancelCtx] : List Event) ∧
      (∀ cn o, Client.InsertOne (some (.jarr [])) cn o =
        (.ok (zeroObjectID, some e), [.deriveCtx, .cancelCtx])) ∧
      (∀ o, Client.FindOne (some (.jarr [])) o =
        ((none, some e), [.deriveCtx, .cancelCtx])) ∧
      (∀ o, Client.FindManyFilterJSON (some (.jarr [])) o =
        (([], some e), [.deriveCtx, .cancelCtx])) ∧
      (∀ o, Client.DeleteOne (some (.jarr [])) o =
        ((none, some e), [.deriveCtx, .cancelCtx])) ∧
      (∀ o, Client.DeleteAll (some (.jarr [])) o =
        ((none, some e), [.deriveCtx, .cancelCtx])) ∧
      (∀ nv o, Client.UpdateMany (some (.jarr [])) nv o =
        ((none, some e), [.deriveCtx, .cancelCtx])) :=
  ⟨rfl, C1_nonobject_rejected_before_driver (some (.jarr [])) rfl⟩

/-- C1 counterexample: the literal null is valid JSON whose top-level
value is not an object, yet jsonToBsonM accepts it (nil Document, nil
error), so FindOne on the input null dispatches the driver call (one
driverCall event) and returns the driver outcome - here the driver
rejection of a nil filter document - which is not a MalformedPayload
conversion error. -/
theorem C1_null_counterexample :
    jsonToBsonM (some .jnull) = (none, none) ∧
    Client.FindOne (some .jnull) (.error (.other 7)) =
      ((none, some (.driver (.other 7))),
       [.deriveCtx, .driverCall, .cancelCtx]) ∧
    Err.isMalformedPayload (.driver (.other 7)) = false ∧
    (Client.FindOne (some .jnull) (.error (.other 7))).2.count
        Event.driverCall = 1 := by
  refine ⟨rfl, rfl, rfl, by decide⟩

mutual

theorem decodeValF64_eq (j : Jval) (h : numsRepresentable j = true) :
    decodeValF64 j = some (decodeVal j) := by
  match j with
  | .jnull => rfl
  | .jbool b => rfl
  | .jstr s => rfl
  | .jnum n =>
      have hn : float64OfInt n = some n := by
        simpa [numsRepresentable] using h
      simp [decodeValF64, decodeVal, hn]
  | .jarr xs =>
      have h1 : numsRepresentableList xs = true := by
        simpa [numsRepresentable] using h
      simp [decodeValF64, decodeVal, decodeListF64_eq xs h1]
  | .jobj fs =>
      have h1 : numsRepresentableFields fs = true := by
        simpa [numsRepresentable] using h
      simp [decodeValF64, decodeVal, decodeFieldsF64_eq fs h1 []]

theorem decodeListF64_eq (xs : List Jval)
    (h : numsRepresentableList xs = true) :
    decodeListF64 xs = some (decodeList xs) := by
  match xs with
  | [] => rfl
  | x :: rest =>
      have h1 : numsRepresentable x = true ∧
          numsRepresentableList rest = true := by
        simpa [numsRepresentableList, Bool.and_eq_true] using h
      simp [decodeListF64, decodeList, decodeValF64_eq x h1.1,
        decodeListF64_eq rest h1.2]

theorem decodeFieldsF64_eq (fs : List (String × Jval))
    (h : numsRepresentableFields fs = true) :
    ∀ acc, decodeFieldsF64 fs acc = some (decodeFields fs acc) := by
  match fs with
  | [] => intro acc; rfl
  | (k, v) :: rest =>
      intro acc
      have h1 : numsRepresentable v = true ∧
          numsRepresentableFields rest = true := by
        simpa [numsRepresentableFields, Bool.and_eq_true] using h
      simp [decodeFieldsF64, decodeFields, decodeValF64_eq v h1.1,
        decodeFieldsF64_eq rest h1.2 _]

end

/-- C4 (amended): for every valid JSON object whose member names are
pairwise distinct at every nesting level and whose numeric values are
all exactly representable in float64, converting it to a Document via
the conversion layer (including the float64 narrowing of numbers that
json.Unmarshal performs) and serializing the Document back to JSON
yields the object back exactly (in particular with the same field names
and field values, up to key ordering). -/
theorem C4_roundtrip_unique_keys (fs : List (String × Jval))
    (h1 : uniqKeys (.jobj fs) = true)
    (h2 : numsRepresentable (.jobj fs) = true) :
    roundTripF64 (.jobj fs) = some (.jobj fs) := by
  have h2f : numsRepresentableFields fs = true := by
    simpa [numsRepresentable] using h2
  have hd : decodeFieldsF64 fs [] = some (decodeFields fs []) :=
    decodeFieldsF64_eq fs h2f []
  simp only [roundTripF64, jsonToBsonMF64, hd]
  rw [show GoVal.gmap (decodeFields fs []) = decodeVal (.jobj fs) from rfl,
      marshalVal_decodeVal _ h1]

/-- C4 witness: a two-member object with small numbers round-trips
unchanged. -/
theorem C4_roundtrip_unique_keys_witness :
    uniqKeys (.jobj [("name", .jstr "john"), ("age", .jnum 44)]) = true ∧
    numsRepresentable
        (.jobj [("name", .jstr "john"), ("age", .jnum 44)]) = true ∧
    roundTripF64 (.jobj [("name", .jstr "john"), ("age", .jnum 44)]) =
      some (.jobj [("name", .jstr "john"), ("age", .jnum 44)]) :=
  ⟨rfl, by decide, C4_roundtrip_unique_keys _ rfl (by decide)⟩

/-- C4 counterexample: first, the valid JSON object with the duplicated
member name a loses its first binding in the Document (the map keeps
the last assignment), so no serialization of that Document is a
permutation of the original two members; second, the valid JSON object
with the single member a holding 2 to the 53 plus 1 has pairwise
distinct member names yet the float64 narrowing rounds its value to
2 to the 53, so the round trip does not preserve all field values even
with unique keys. -/
theorem C4_counterexample :
    roundTripF64 (.jobj [("a", .jnum 1), ("a", .jnum 2)]) =
      some (.jobj [("a", .jnum 2)]) ∧
    (¬ ∃ gs : List (String × Jval),
        roundTripF64 (.jobj [("a", .jnum 1), ("a", .jnum 2)]) =
          some (.jobj gs) ∧
        List.Perm gs [("a", Jval.jnum 1), ("a", Jval.jnum 2)]) ∧
    roundTripF64 (.jobj [("a", .jnum 9007199254740993)]) =
      some (.jobj [("a", .jnum 9007199254740992)]) := by
  refine ⟨rfl, ?_, rfl⟩
  rintro ⟨gs, hg, hp⟩
  rw [show roundTripF64 (.jobj [("a", .jnum 1), ("a", .jnum 2)]) =
        some (.jobj [("a", .jnum 2)]) from rfl] at hg
  have hgs : gs = [("a", Jval.jnum 2)] := by
    injection hg with h1
    injection h1 with h2
    exact h2.symm
  subst hgs
  have hlen := hp.length_eq
  simp at hlen

/-- C2: when a single-record lookup matches zero documents (the driver
Decode yields its mongo.ErrNoDocuments sentinel), FindOne and FindByID
return exactly that sentinel, and the sentinel is distinguishable from
every other store failure the facade can return. -/
theorem C2_notfound_distinct (fs : List (String × Jval)) (id : ObjectID) :
    (Client.FindOne (some (.jobj fs)) (.error .noDocuments)).1 =
      (none, some (.driver .noDocuments)) ∧
    (Client.FindByID id (.error .noDocuments)).1 =
      (none, some (.driver .noDocuments)) ∧
    Err.isNotFound (.driver .noDocuments) = true ∧
    (∀ c, Err.isNotFound (.driver (.other c)) = false) ∧
    (∀ msg e, Err.isNotFound (.wrap msg e) = false) ∧
    Err.isNotFound .jsonInvalid = false ∧
    Err.isNotFound .jsonType = false ∧
    Err.isNotFound .collectionNil = false :=
  ⟨rfl, rfl, rfl, fun _ => rfl, fun _ _ => rfl, rfl, rfl, rfl⟩

/-- C3: on a driver-level failure e, every operation returns an error
that preserves e as its cause, with exactly one driver dispatch in the
trace (no retry). -/
theorem C3_driver_failure_propagated (fs : List (String × Jval))
    (e : DriverErr) :
    (Err.driver e).hasCause e = true ∧
    (∀ r, Client.InsertOne (some (.jobj fs)) false ⟨r, some e⟩ =
      (.ok (zeroObjectID, some (.driver e)),
       [.deriveCtx, .driverCall, .cancelCtx])) ∧
    Client.FindOne (some (.jobj fs)) (.error e) =
      ((none, some (.driver e)), [.deriveCtx, .driverCall, .cancelCtx]) ∧
    (∀ id, Client.FindByID id (.error e) =
      ((none, some (.driver e)), [.deriveCtx, .driverCall, .cancelCtx])) ∧
    Client.FindManyFilterJSON (some (.jobj fs)) (.error e) =
      (([], some (.driver e)), [.deriveCtx, .driverCall, .cancelCtx]) ∧
    (∀ bf, Client.FindManyFilterBSON bf (.error e) =
      (([], some (.driver e)), [.deriveCtx, .driverCall, .cancelCtx])) ∧
    (∀ dr, Client.DeleteOne (some (.jobj fs)) (dr, some e) =
      ((dr, some (.driver e)), [.deriveCtx, .driverCall, .cancelCtx])) ∧
    (∀ dr, Client.DeleteAll (some (.jobj fs)) (dr, some e) =
      ((dr, some (.driver e)), [.deriveCtx, .driverCall, .cancelCtx])) ∧
    (∀ id nv ur, Client.UpdateByID id nv (ur, some e) =
      ((ur, some (.driver e)), [.deriveCtx, .driverCall, .cancelCtx])) ∧
    (∀ f nv ur, Client.UpdateOne f nv (ur, some e) =
      ((ur, some (.driver e)), [.deriveCtx, .driverCall, .cancelCtx])) ∧
    (∀ nv ur, Client.UpdateMany (some (.jobj fs)) nv (ur, some e) =
      ((ur, some (.driver e)), [.deriveCtx, .driverCall, .cancelCtx])) := by
  refine ⟨by simp [Err.hasCause], ?_, rfl, fun id => rfl, rfl, fun bf => rfl,
    fun dr => rfl, fun dr => rfl, fun id nv ur => rfl, fun f nv ur => rfl,
    fun nv ur => rfl⟩
  intro r
  cases r <;> rfl

/-- C5: a multi-record find over a cursor holding zero documents returns
the empty sequence with a nil error, for both the JSON and the
pre-built-filter variants; in particular the error is not the NotFound
sentinel. -/
theorem C5_empty_find_no_error (fs : List (String × Jval)) :
    Client.FindManyFilterJSON (some (.jobj fs)) (.ok ⟨[], none⟩) =
      (([], none),
       [.deriveCtx, .driverCall, .closeCursor, .cancelCtx]) ∧
    (∀ bf : Doc, Client.FindManyFilterBSON bf (.ok ⟨[], none⟩) =
      (([], none),
       [.deriveCtx, .driverCall, .closeCursor, .cancelCtx])) ∧
    walkMongoSet ⟨[], none⟩ = ([], none) :=
  ⟨rfl, fun _ => rfl, rfl⟩

theorem walkAux_decode_error (pre : List Doc) :
    ∀ (acc : List Doc) (post : List (Except DriverErr Doc)) (e : DriverErr)
      (ce : Option DriverErr),
    walkAux (pre.map Except.ok ++ .error e :: post) acc ce =
      ([], some (.wrap "could not decode into buffer" (.driver e))) := by
  induction pre with
  | nil => intro acc post e ce; rfl
  | cons d rest ih =>
      intro acc post e ce
      simp only [List.map_cons, List.cons_append, walkAux]
      exact ih (acc ++ [d]) post e ce

/-- C6: when decoding fails partway through cursor iteration (after any
number of successfully decoded documents, with any remainder behind the
failure), the walk returns the nil slice and the wrapped CursorIteration
error: every partial result is discarded, in walkMongoSet itself and in
both multi-record find operations. -/
theorem C6_decode_failure_discards_partial (pre : List Doc)
    (post : List (Except DriverErr Doc)) (e : DriverErr)
    (ce : Option DriverErr) (fs : List (String × Jval)) (bf : Doc) :
    walkMongoSet ⟨pre.map Except.ok ++ .error e :: post, ce⟩ =
      ([], some (.wrap "could not decode into buffer" (.driver e))) ∧
    Client.FindManyFilterJSON (some (.jobj fs))
        (.ok ⟨pre.map Except.ok ++ .error e :: post, ce⟩) =
      (([], some (.wrap "could not decode into buffer" (.driver e))),
       [.deriveCtx, .driverCall, .closeCursor, .cancelCtx]) ∧
    Client.FindManyFilterBSON bf
        (.ok ⟨pre.map Except.ok ++ .error e :: post, ce⟩) =
      (([], some (.wrap "could not decode into buffer" (.driver e))),
       [.deriveCtx, .driverCall, .closeCursor, .cancelCtx]) := by
  have hw : walkMongoSet ⟨pre.map Except.ok ++ .error e :: post, ce⟩ =
      ([], some (.wrap "could not decode into buffer" (.driver e))) :=
    walkAux_decode_error pre [] post e ce
  refine ⟨hw, ?_, ?_⟩
  · show (walkMongoSet ⟨pre.map Except.ok ++ .error e :: post, ce⟩,
        ([.deriveCtx, .driverCall, .closeCursor, .cancelCtx] : List Event)) = _
    rw [hw]
  · show (walkMongoSet ⟨pre.map Except.ok ++ .error e :: post, ce⟩,
        ([.deriveCtx, .driverCall, .closeCursor, .cancelCtx] : List Event)) = _
    rw [hw]

/-- C7: for every facade operation, every input and every driver outcome
(success, conversion error, driver error, early return or panic), the
trace ends with the cancellation of the derived timeout context, and the
cancellation runs exactly once. -/
theorem C7_context_cancelled_on_every_path :
    (∀ data cn o,
      cancelReleasedOnce (Client.InsertOne data cn o).2 = true) ∧
    (∀ filter o, cancelReleasedOnce (Client.FindOne filter o).2 = true) ∧
    (∀ id o, cancelReleasedOnce (Client.FindByID id o).2 = true) ∧
    (∀ filter o,
      cancelReleasedOnce (Client.FindManyFilterJSON filter o).2 = true) ∧
    (∀ bf o,
      cancelReleasedOnce (Client.FindManyFilterBSON bf o).2 = true) ∧
    (∀ filter o, cancelReleasedOnce (Client.DeleteOne filter o).2 = true) ∧
    (∀ filter o, cancelReleasedOnce (Client.DeleteAll filter o).2 = true) ∧
    (∀ id nv o,
      cancelReleasedOnce (Client.UpdateByID id nv o).2 = true) ∧
    (∀ f nv o, cancelReleasedOnce (Client.UpdateOne f nv o).2 = true) ∧
    (∀ filter nv o,
      cancelReleasedOnce (Client.UpdateMany filter nv o).2 = true) := by
  refine ⟨?_, ?_, ?_, ?_, ?_, ?_, ?_, ?_, ?_, ?_⟩
  · intro data cn o
    obtain ⟨r, err⟩ := o
    rcases h : (jsonToBsonM data).2 with _ | e
    · rcases r with _ | r
      · cases cn <;> cases err <;> simp only [Client.InsertOne, h] <;> rfl
      · rcases hi : r.insertedID with id | s <;> cases cn <;> cases err <;>
          simp only [Client.InsertOne, h, hi] <;> rfl
    · simp only [Client.InsertOne, h]; rfl
  · intro filter o
    rcases h : (jsonToBsonM filter).2 with _ | e
    · cases o <;> simp only [Client.FindOne, h] <;> rfl
    · simp only [Client.FindOne, h]; rfl
  · intro id o
    cases o <;> rfl
  · intro filter o
    rcases h : (jsonToBsonM filter).2 with _ | e
    · cases o <;> simp only [Client.FindManyFilterJSON, h] <;> rfl
    · simp only [Client.FindManyFilterJSON, h]; rfl
  · intro bf o
    cases o <;> rfl
  · intro filter o
    rcases h : (jsonToBsonM filter).2 with _ | e
    · simp only [Client.DeleteOne, h]; rfl
    · simp only [Client.DeleteOne, h]; rfl
  · intro filter o
    rcases h : (jsonToBsonM filter).2 with _ | e
    · simp only [Client.DeleteAll, h]; rfl
    · simp only [Client.DeleteAll, h]; rfl
  · intro id nv o
    rfl
  · intro f nv o
    rfl
  · intro filter nv o
    rcases h : (jsonToBsonM filter).2 with _ | e
    · simp only [Client.UpdateMany, h]; rfl
    · simp only [Client.UpdateMany, h]; rfl

/-- C8: for a driver insert that succeeds (non-nil result, nil error),
Client.InsertOne type-asserts the InsertedID: when it is not a
primitive.ObjectID the operation does not return an error value but
panics, and when it is an ObjectID the operation returns it with a nil
error. -/
theorem C8_insert_asserts_objectid (fs : List (String × Jval)) (s : String)
    (id : ObjectID) :
    Client.InsertOne (some (.jobj fs)) false
        ⟨some ⟨.strID s⟩, none⟩ =
      (.panics assertionPanicMsg, [.deriveCtx, .driverCall, .cancelCtx]) ∧
    Client.InsertOne (some (.jobj fs)) false ⟨some ⟨.oid id⟩, none⟩ =
      (.ok (id, none), [.deriveCtx, .driverCall, .cancelCtx]) :=
  ⟨rfl, rfl⟩

/-- C9: NewMongo called with a nil configuration pointer does not return
an error: the nil check has an empty body and the configuration is then
dereferenced, a panic; with a non-nil configuration the constructor
always returns (no panic), whatever the driver outcomes. -/
theorem C9_newmongo_nil_config_panics (o : ConnectOracle) :
    NewMongo none o = .panics nilDerefPanicMsg ∧
    (∀ cfg : Cfg, ∃ r, NewMongo (some cfg) o = .ok r) := by
  refine ⟨rfl, fun cfg => ?_⟩
  rcases o with ⟨ce, pe, nNil, nce⟩
  rcases ce with _ | e1
  · rcases pe with _ | e2
    · rcases nce with _ | e3
      · cases nNil
        · exact ⟨_, rfl⟩
        · exact ⟨_, rfl⟩
      · exact ⟨_, rfl⟩
    · exact ⟨_, rfl⟩
  · exact ⟨_, rfl⟩

/-- C10 counterexample: on the payload of the empty object and the
driver outcome carrying both a non-nil insert result (InsertedID an
ObjectID) and a non-nil error, the old generation returns the inserted
identifier alongside the error while the new generation returns the zero
identifier: the two generations do not return equal results for every
driver outcome, and the old one does not return the zero identifier
whenever the driver reports an error. -/
theorem C10_counterexample :
    (MoInstance.InsertOne (some (.jobj [])) false
        ⟨some ⟨.oid 1⟩, some (.other 3)⟩).1 =
      .ok (1, some (.driver (.other 3))) ∧
    (Client.InsertOne (some (.jobj [])) false
        ⟨some ⟨.oid 1⟩, some (.other 3)⟩).1 =
      .ok (zeroObjectID, some (.driver (.other 3))) ∧
    MoInstance.InsertOne (some (.jobj [])) false
        ⟨some ⟨.oid 1⟩, some (.other 3)⟩ ≠
      Client.InsertOne (some (.jobj [])) false
        ⟨some ⟨.oid 1⟩, some (.other 3)⟩ :=
  ⟨rfl, rfl, by decide⟩

/-- C10 (amended): the two generations of the insert operation return
equal results and traces for every input payload and every driver
outcome in which the driver does not report a non-nil result together
with a non-nil error; in particular they agree on every error outcome
with a nil result (both returning the zero identifier) and on every
success. -/
theorem C10_generations_agree (data : JsonBytes) (cn : Bool) :
    (∀ r : Option InsertOneResult,
      MoInstance.InsertOne data cn ⟨r, none⟩ =
        Client.InsertOne data cn ⟨r, none⟩) ∧
    (∀ e : Option DriverErr,
      MoInstance.InsertOne data cn ⟨none, e⟩ =
        Client.InsertOne data cn ⟨none, e⟩) := by
  constructor
  · intro r
    rcases h : (jsonToBsonM data).2 with _ | e0
    · rcases r with _ | r
      · cases cn <;> simp [MoInstance.InsertOne, Client.InsertOne, h]
      · rcases hi : r.insertedID with id | s <;> cases cn <;>
          simp [MoInstance.InsertOne, Client.InsertOne, h, hi]
    · simp [MoInstance.InsertOne, Client.InsertOne, h]
  · intro e
    rcases h : (jsonToBsonM data).2 with _ | e0
    · cases cn <;> simp [MoInstance.InsertOne, Client.InsertOne, h]
    · simp [MoInstance.InsertOne, Client.InsertOne, h]

end MongoWrp
